import Mathlib

/-!
Verification of the ControlCamera vein-detection core (src/yolo_detector.py).

We give a shallow embedding of the `VeinProcessor` class: the detection
post-processing (`_calculate_iou`, `_apply_nms`, `_run_single_detection`) is
translated directly into executable Lean functions over `ℚ` (Python floats are
modelled as rationals), and the frame-enhancement pipeline (`process_frame`,
`_apply_advanced_vein_enhancement`, `_hessian_vessel_enhancement`,
`_apply_directional_filters`, `_top_hat_enhancement`) is translated with the
external cv2 / scikit-image primitives abstracted into a `CvOps` record of
fallible operations (`Except Err _` models Python exceptions), while every
piece of control flow, numpy pointwise arithmetic and try/except structure
belonging to the repository itself is translated concretely.
-/

namespace ControlCamera

open List

/-- Exceptions are modelled by their message. -/
abbrev Err := String

/-! ## Detection data model (src/yolo_detector.py detection dicts) -/

/-- A bounding box in x, y, width, height form, as stored in the detection
dicts (`'box': [x, y, w, h]`).  Coordinates are rationals (Python numbers). -/
structure Box where
  x : ℚ
  y : ℚ
  w : ℚ
  h : ℚ
deriving DecidableEq, Repr

/-- One detection dict as built by `_run_single_detection`:
`{'box': ..., 'confidence': ..., 'class_id': ..., 'class_name': ...}`. -/
structure Detection where
  box : Box
  confidence : ℚ
  class_id : Nat
  class_name : String
deriving DecidableEq, Repr

/-! ## VeinProcessor._calculate_iou (src/yolo_detector.py lines 267-292) -/

/-- Direct translation of `_calculate_iou`: convert both boxes from
x,y,w,h to corner form, intersect, return 0.0 on empty intersection,
otherwise intersection over union, guarding `union_area > 0`. -/
def calculate_iou (box1 box2 : Box) : ℚ :=
  let x1_1 := box1.x
  let y1_1 := box1.y
  let x2_1 := box1.x + box1.w
  let y2_1 := box1.y + box1.h
  let x1_2 := box2.x
  let y1_2 := box2.y
  let x2_2 := box2.x + box2.w
  let y2_2 := box2.y + box2.h
  let inter_x1 := max x1_1 x1_2
  let inter_y1 := max y1_1 y1_2
  let inter_x2 := min x2_1 x2_2
  let inter_y2 := min y2_1 y2_2
  if inter_x2 ≤ inter_x1 ∨ inter_y2 ≤ inter_y1 then 0
  else
    let inter_area := (inter_x2 - inter_x1) * (inter_y2 - inter_y1)
    let area1 := box1.w * box1.h
    let area2 := box2.w * box2.h
    let union_area := area1 + area2 - inter_area
    if 0 < union_area then inter_area / union_area else 0

/-- `w1 * h1`, the `area1 = w1 * h1` line of `_calculate_iou`. -/
def box_area (b : Box) : ℚ := b.w * b.h

/-- The intersection area term of `_calculate_iou`
(`(inter_x2 - inter_x1) * (inter_y2 - inter_y1)`). -/
def inter_area (box1 box2 : Box) : ℚ :=
  (min (box1.x + box1.w) (box2.x + box2.w) - max box1.x box2.x) *
    (min (box1.y + box1.h) (box2.y + box2.h) - max box1.y box2.y)

/-- The union-area term `area1 + area2 - inter_area` of `_calculate_iou`. -/
def union_area (box1 box2 : Box) : ℚ :=
  box_area box1 + box_area box2 - inter_area box1 box2

/-! ## VeinProcessor._apply_nms (src/yolo_detector.py lines 243-265) -/

/-- The comparison used by `sorted(detections, key=lambda x: x['confidence'],
reverse=True)`: `a` may come before `b` when `b`'s confidence is at most
`a`'s.  Python's `sorted` is stable, as is `List.mergeSort`. -/
def confDescLE (a b : Detection) : Bool :=
  decide (b.confidence ≤ a.confidence)

/-- The `while detections:` loop of `_apply_nms`: pop the head (highest
confidence after the sort) into `keep`, drop every remaining detection whose
IoU with it is not `< iou_threshold`, repeat. -/
def nmsLoop (iou_threshold : ℚ) : List Detection → List Detection
  | [] => []
  | best :: detections =>
      best ::
        nmsLoop iou_threshold
          (detections.filter
            (fun det => decide (calculate_iou best.box det.box < iou_threshold)))
termination_by l => l.length
decreasing_by
  simp only [List.length_cons]
  exact Nat.lt_succ_of_le (List.length_filter_le _ _)

/-- Direct translation of `_apply_nms`: empty input short-circuits to `[]`,
otherwise stable-sort by confidence descending and run the greedy loop.
The default `iou_threshold` in the source is 0.4. -/
def apply_nms (detections : List Detection) (iou_threshold : ℚ) : List Detection :=
  if detections.isEmpty then []
  else nmsLoop iou_threshold (detections.mergeSort confDescLE)

/-- The NMS procedure exactly as the spec words it (spec section 4.5 step 2):
sort by confidence descending (stable), repeatedly pop the best and REMOVE
every remaining detection whose IoU with it is `>= iou_threshold`.  This
definition follows the spec text and is compared against `apply_nms`, which
follows the source. -/
def nms_spec_loop (iou_threshold : ℚ) : List Detection → List Detection
  | [] => []
  | best :: detections =>
      best ::
        nms_spec_loop iou_threshold
          (detections.filter
            (fun det => !(decide (iou_threshold ≤ calculate_iou best.box det.box))))
termination_by l => l.length
decreasing_by
  simp only [List.length_cons]
  exact Nat.lt_succ_of_le (List.length_filter_le _ _)

/-- Spec-side wrapper for `nms_spec_loop`, mirroring the spec's
`filter_and_deduplicate` step 2 on an arbitrary detection list. -/
def nms_spec (detections : List Detection) (iou_threshold : ℚ) : List Detection :=
  if detections.isEmpty then []
  else nms_spec_loop iou_threshold (detections.mergeSort confDescLE)

/-! ## VeinProcessor._run_single_detection (src/yolo_detector.py lines 213-241) -/

/-- One raw box from the external YOLO model: corner coordinates from
`box.xyxy[0]`, confidence from `box.conf[0]`, class index from `box.cls[0]`. -/
structure RawBox where
  x1 : ℚ
  y1 : ℚ
  x2 : ℚ
  y2 : ℚ
  conf : ℚ
  cls : Nat
deriving DecidableEq, Repr

/-- Python `int(...)` on a float: truncation toward zero. -/
def truncQ (x : ℚ) : Int := if 0 ≤ x then ⌊x⌋ else ⌈x⌉

/-- Translation of `_run_single_detection`.  The external model call
`self.model(enhanced_frame, conf=conf_threshold, verbose=False)` is modelled
by its outcome `modelResult`: a list of raw boxes on success, or an exception
(also covering the `AttributeError` from the missing `self.model` attribute),
in which case the `except` branch returns `[]`.  On success each raw box is
converted to an x,y,w,h detection dict; note that no confidence comparison is
performed here — the threshold was already handed to the external model. -/
def run_single_detection (modelResult : Except Err (List RawBox))
    (class_names : List String) : List Detection :=
  match modelResult with
  | .error _ => []
  | .ok boxes =>
      boxes.map (fun b =>
        { box := { x := (truncQ b.x1 : ℚ), y := (truncQ b.y1 : ℚ),
                   w := (truncQ (b.x2 - b.x1) : ℚ), h := (truncQ (b.y2 - b.y1) : ℚ) }
          confidence := b.conf
          class_id := b.cls
          class_name :=
            if hc : b.cls < class_names.length then class_names.get ⟨b.cls, hc⟩
            else ("unknown") })

/-! ## Frame data model

Frames are numpy arrays of 8-bit samples: either 2-D grayscale or 3-D BGR
(`cv2.cvtColor(..., COLOR_BGR2GRAY)` consumes 3-channel BGR input).  Pixel
values live in `ℚ`; integer casts (`astype(np.uint8)`) are modelled
explicitly where the source performs them. -/

/-- A 2-D (grayscale / float) image: a height, a width, and a total pixel
function (reads outside the h×w grid are irrelevant to every operation). -/
structure GImg where
  h : Nat
  w : Nat
  px : Nat → Nat → ℚ

/-- A 3-D BGR image (3 channels, the form `cv2.COLOR_BGR2GRAY` accepts). -/
structure CImg where
  h : Nat
  w : Nat
  px : Nat → Nat → Nat → ℚ

/-- A frame as `process_frame` receives it: `len(frame.shape) == 3` is the
`color` case, otherwise `gray`. -/
inductive Img where
  | gray (g : GImg)
  | color (c : CImg)

/-- `frame.size`: number of samples, `h*w` for 2-D and `h*w*3` for 3-D. -/
def imgSize : Img → Nat
  | .gray g => g.h * g.w
  | .color c => c.h * c.w * 3

/-- Width, height and channel count of a frame (channels: 1 for 2-D, 3 for
BGR). -/
def imgShape : Img → Nat × Nat × Nat
  | .gray g => (g.h, g.w, 1)
  | .color c => (c.h, c.w, 3)

/-- Height and width of a 2-D image. -/
def gshape (g : GImg) : Nat × Nat := (g.h, g.w)

/-! ### Pointwise numpy operations used by the source -/

/-- `np.maximum(a, b)` on same-shaped arrays (shape taken from `a`). -/
def pxMax (a b : GImg) : GImg :=
  { h := a.h, w := a.w, px := fun i j => max (a.px i j) (b.px i j) }

/-- `np.zeros_like(a)`. -/
def zerosLike (a : GImg) : GImg := { a with px := fun _ _ => 0 }

/-- `a.astype(np.float64) / 255.0`. -/
def div255 (a : GImg) : GImg := { a with px := fun i j => a.px i j / 255 }

/-- `astype(np.uint8)` on one sample: C-style truncation toward zero then
wrap modulo 256. -/
def u8q (x : ℚ) : ℚ := ((truncQ x % 256 : Int) : ℚ)

/-- `(a * 255).astype(np.uint8)` (the return conversion of
`_hessian_vessel_enhancement`; no clipping in the source). -/
def scale255u8 (a : GImg) : GImg := { a with px := fun i j => u8q (255 * a.px i j) }

/-- `np.abs(a)`. -/
def absImg (a : GImg) : GImg := { a with px := fun i j => |a.px i j| }

/-- One sample of `np.clip(x, 0, 255)`. -/
def clip0255 (x : ℚ) : ℚ := max 0 (min x 255)

/-- `np.clip(a, 0, 255).astype(np.uint8)`. -/
def clipU8 (a : GImg) : GImg := { a with px := fun i j => u8q (clip0255 (a.px i j)) }

/-- `255 - a` on an 8-bit array (no wrap possible for samples in [0,255]). -/
def invert255 (a : GImg) : GImg := { a with px := fun i j => 255 - a.px i j }

/-- Pointwise `a + b` (numpy `+=` accumulation). -/
def pxAdd (a b : GImg) : GImg :=
  { h := a.h, w := a.w, px := fun i j => a.px i j + b.px i j }

/-- Pointwise scalar multiple (`tophat.astype(np.float32) / len(kernel_sizes)`). -/
def scaleImg (c : ℚ) (a : GImg) : GImg := { a with px := fun i j => c * a.px i j }

/-- All samples of the h×w grid as a list, row-major. -/
def pixList (a : GImg) : List ℚ :=
  (List.range a.h).foldr (fun i acc => ((List.range a.w).map (a.px i)) ++ acc) []

/-- `a.max()`.  numpy raises on an empty array; the model returns 0 there
(that case is unreachable: `process_frame` rejects size-zero frames). -/
def imgMax (a : GImg) : ℚ := (pixList a).max?.getD 0

/-- `np.abs(vr) / vr.max()` — note the denominator is the max of the SIGNED
array, exactly as in the source (`np.abs(vessel_response) /
vessel_response.max()`).  `ℚ` division by zero yields 0 where numpy would
produce NaN/inf with a warning (still no exception). -/
def normByMax (a : GImg) : GImg :=
  { a with px := fun i j => |a.px i j| / imgMax a }

/-- `np.maximum.reduce(responses)` (raises on `[]`; unreachable, the
directional filter bank always produces six responses). -/
def reduceMax : List GImg → GImg
  | [] => { h := 0, w := 0, px := fun _ _ => 0 }
  | r :: rs => rs.foldl pxMax r

/-! ### Configuration (resolved `image_processing.*` values with the
defaults hard-coded in `process_frame` and `_hessian_vessel_enhancement`) -/

/-- The configuration knobs `process_frame` reads (each `.get(key, default)`
call is resolved into one field). -/
structure ProcessorConfig where
  clahe_enabled : Bool
  clip_limit : ℚ
  tile_grid_size_x : Nat
  tile_grid_size_y : Nat
  bilateral_enabled : Bool
  diameter : Nat
  sigma_color : ℚ
  sigma_space : ℚ
  contrast_enabled : Bool
  alpha : ℚ
  beta : ℚ
  sigma_values : List ℚ

/-- The defaults written in the source: clip 3.0, tiles 8×8, diameter 9,
sigmas 75/75, alpha 1.8, beta 10, hessian sigma values [1,2,3,4]. -/
def defaultConfig : ProcessorConfig :=
  { clahe_enabled := true, clip_limit := 3, tile_grid_size_x := 8, tile_grid_size_y := 8
    bilateral_enabled := true, diameter := 9, sigma_color := 75, sigma_space := 75
    contrast_enabled := true, alpha := 9 / 5, beta := 10
    sigma_values := [1, 2, 3, 4] }

/-! ### External cv2 / scikit-image primitives

Every call into cv2 or skimage is an external collaborator; each is a field
of `CvOps`, fallible (`Except Err`) because any cv2/skimage call may raise.
The repository's own control flow around them is translated concretely. -/

/-- The external image primitives `process_frame` and its helpers call. -/
structure CvOps where
  /-- `cv2.cvtColor(frame, cv2.COLOR_BGR2GRAY)`. -/
  cvtColor_BGR2GRAY : CImg → Except Err GImg
  /-- `cv2.cvtColor(gray, cv2.COLOR_GRAY2BGR)`. -/
  cvtColor_GRAY2BGR : GImg → Except Err CImg
  /-- `cv2.createCLAHE(clipLimit, tileGridSize).apply(gray)`. -/
  clahe_apply : ℚ → Nat → Nat → GImg → Except Err GImg
  /-- `cv2.bilateralFilter(gray, diameter, sigma_color, sigma_space)`. -/
  bilateralFilter : Nat → ℚ → ℚ → GImg → Except Err GImg
  /-- `cv2.convertScaleAbs(gray, alpha, beta)`. -/
  convertScaleAbs : ℚ → ℚ → GImg → Except Err GImg
  /-- `cv2.addWeighted(a, wa, b, wb, c)`. -/
  addWeighted : GImg → ℚ → GImg → ℚ → ℚ → Except Err GImg
  /-- `frangi(gray_norm, scale_range=(1, 10), scale_step=2, beta1=0.5, beta2=15)`
  as called in `process_frame`. -/
  frangi_main : GImg → Except Err GImg
  /-- `frangi(image_norm, scale_range=(sigma*0.5, sigma*2), scale_step=0.5,
  beta1=0.5, beta2=15, gamma=0.5)` as called per scale in
  `_hessian_vessel_enhancement`. -/
  frangi_scale : ℚ → GImg → Except Err GImg
  /-- `cv2.GaussianBlur(image, (k, k), sigma)`. -/
  gaussianBlur : Int → ℚ → GImg → Except Err GImg
  /-- `cv2.Laplacian(image, cv2.CV_64F, ksize=3)`. -/
  laplacian_64F : GImg → Except Err GImg
  /-- `cv2.Laplacian(image, cv2.CV_8U, ksize=3)`. -/
  laplacian_8U : GImg → Except Err GImg
  /-- `cv2.filter2D(image, cv2.CV_32F, kernel)`. -/
  filter2D : GImg → GImg → Except Err GImg
  /-- The 15×15 oriented kernel `_apply_directional_filters` synthesizes for
  one angle (the double loop over `np.cos`/`np.sin`, L1-normalized): pure
  floating-point numpy arithmetic, abstracted as a function of the angle. -/
  mkDirectionalKernel : ℚ → GImg
  /-- `cv2.morphologyEx(image, cv2.MORPH_TOPHAT,
  cv2.getStructuringElement(cv2.MORPH_ELLIPSE, (size, size)))`. -/
  morph_tophat : Nat → GImg → Except Err GImg

/-! ## VeinProcessor._hessian_vessel_enhancement (src/yolo_detector.py lines 122-154) -/

/-- Python `int(sigma * 6) | 1` ("ensure odd"): set bit 0 of the truncated
value. -/
def orOne (n : Int) : Int := if n % 2 = 0 then n + 1 else n

/-- One scale of the multi-scale loop in `_hessian_vessel_enhancement`: try
`frangi` at scale `sigma`; on exception fall back to Gaussian blur with
kernel size `int(sigma*6)|1`, absolute Laplacian, normalized by the
response's (signed) maximum.  Either branch yields this scale's response;
failures of the fallback's cv2 calls escape the per-scale `except` and
abort the whole body. -/
def hessian_scale_response (ops : CvOps) (image_norm image : GImg) (sigma : ℚ) :
    Except Err GImg :=
  match ops.frangi_scale sigma image_norm with
  | .ok vessel_response => .ok vessel_response
  | .error _ => do
      let kernel_size := orOne (truncQ (sigma * 6))
      let blurred ← ops.gaussianBlur kernel_size sigma image
      let vessel_response ← ops.laplacian_64F blurred
      .ok (normByMax vessel_response)

/-- One iteration of the `for sigma in sigma_values:` loop: accumulate
`vessel_enhanced = np.maximum(vessel_enhanced, vessel_response)` (the
source takes the maximum at the end of both the `try` and `except`
branches; it is factored out of `hessian_scale_response` here). -/
def hessian_scale_step (ops : CvOps) (image_norm image : GImg)
    (vessel_enhanced : GImg) (sigma : ℚ) : Except Err GImg :=
  match hessian_scale_response ops image_norm image sigma with
  | .ok vessel_response => .ok (pxMax vessel_enhanced vessel_response)
  | .error e => .error e

/-- The outer `try` body of `_hessian_vessel_enhancement` (the
skimage-available path): normalize to [0,1], fold the per-scale maxima
starting from `np.zeros_like`, rescale by 255 and cast to uint8. -/
def hessian_body (ops : CvOps) (sigma_values : List ℚ) (image : GImg) :
    Except Err GImg := do
  let vessel_enhanced ← sigma_values.foldlM
    (hessian_scale_step ops (div255 image) image) (zerosLike (div255 image))
  .ok (scale255u8 vessel_enhanced)

/-- The "fallback method without scikit-image" at the end of
`_hessian_vessel_enhancement`: 5×5 Gaussian blur with sigma 2.0, uint8
Laplacian, inverted. -/
def hessian_fallback (ops : CvOps) (image : GImg) : Except Err GImg := do
  let enhanced ← ops.gaussianBlur 5 2 image
  let laplacian ← ops.laplacian_8U enhanced
  .ok (invert255 laplacian)

/-- Full translation of `_hessian_vessel_enhancement`: if skimage is
available try the multi-scale body, and on any exception (`except: pass`)
or when skimage is missing, use the Gaussian–Laplacian fallback. -/
def hessian_vessel_enhancement (ops : CvOps) (cfg : ProcessorConfig)
    (skimage : Bool) (image : GImg) : Except Err GImg :=
  if skimage then
    match hessian_body ops cfg.sigma_values image with
    | .ok r => .ok r
    | .error _ => hessian_fallback ops image
  else hessian_fallback ops image

/-! ## VeinProcessor._apply_directional_filters (lines 156-198) -/

/-- The `angles = [0, 30, 60, 90, 120, 150]` orientation list. -/
def vein_angles : List ℚ := [0, 30, 60, 90, 120, 150]

/-- Translation of `_apply_directional_filters`: synthesize one oriented
kernel per angle, convolve, take absolute responses, combine by
`np.maximum.reduce`, clip to [0,255] and cast to uint8. -/
def apply_directional_filters (ops : CvOps) (image : GImg) : Except Err GImg := do
  let kernels := vein_angles.map ops.mkDirectionalKernel
  let responses ← kernels.mapM (fun kernel => do
    let response ← ops.filter2D image kernel
    .ok (absImg response))
  .ok (clipU8 (reduceMax responses))

/-! ## VeinProcessor._top_hat_enhancement (lines 200-211) -/

/-- `kernel_sizes = [5, 7, 9, 11]`. -/
def tophat_kernel_sizes : List Nat := [5, 7, 9, 11]

/-- Translation of `_top_hat_enhancement`: accumulate
`enhanced += tophat / len(kernel_sizes)` over elliptical structuring
elements of each size, then clip to [0,255] and cast to uint8. -/
def top_hat_enhancement (ops : CvOps) (image : GImg) : Except Err GImg := do
  let enhanced ← tophat_kernel_sizes.foldlM
    (fun enhanced size => do
      let tophat ← ops.morph_tophat size image
      .ok (pxAdd enhanced (scaleImg (1 / (tophat_kernel_sizes.length : ℚ)) tophat)))
    (zerosLike image)
  .ok (clipU8 enhanced)

/-! ## VeinProcessor._apply_advanced_vein_enhancement (lines 102-120) -/

/-- The `try` body of `_apply_advanced_vein_enhancement`: hessian vessel
enhancement, directional filters, top-hat, then recombination
`cv2.addWeighted(gray, 0.6, enhanced, 0.4, 0)`. -/
def adv_vein_body (ops : CvOps) (cfg : ProcessorConfig) (skimage : Bool)
    (gray : GImg) : Except Err GImg := do
  let enhanced ← hessian_vessel_enhancement ops cfg skimage gray
  let enhanced ← apply_directional_filters ops enhanced
  let enhanced ← top_hat_enhancement ops enhanced
  ops.addWeighted gray (6 / 10) enhanced (4 / 10) 0

/-- Full translation of `_apply_advanced_vein_enhancement`: its own
`except` returns the stage input `gray` unchanged, so this stage is total
and never propagates an exception to `process_frame`. -/
def apply_advanced_vein_enhancement (ops : CvOps) (cfg : ProcessorConfig)
    (skimage : Bool) (gray : GImg) : GImg :=
  match adv_vein_body ops cfg skimage gray with
  | .ok enhanced => enhanced
  | .error _ => gray

/-! ## Frangi blend step of process_frame (lines 72-88) -/

/-- The fallback of the final blend: `laplacian = cv2.Laplacian(gray,
cv2.CV_8U, ksize=3); laplacian = 255 - laplacian; gray =
cv2.addWeighted(gray, 0.7, laplacian, 0.3, 0)`.  Failures here escape to
`process_frame`'s outer handler. -/
def laplacian_fallback_blend (ops : CvOps) (gray : GImg) : Except Err GImg := do
  let laplacian ← ops.laplacian_8U gray
  let laplacian := invert255 laplacian
  ops.addWeighted gray (7 / 10) laplacian (3 / 10) 0

/-- The Frangi blend of `process_frame`: if skimage is available, try
normalizing, Frangi filtering, rescaling to uint8 and blending 0.7/0.3;
on exception, or when skimage is unavailable, use the Laplacian fallback
blend. -/
def frangi_blend_stage (ops : CvOps) (skimage : Bool) (gray : GImg) :
    Except Err GImg :=
  if skimage then
    match (do
      let gray_norm := div255 gray
      let frangi_result ← ops.frangi_main gray_norm
      let frangi_result := scale255u8 frangi_result
      ops.addWeighted gray (7 / 10) frangi_result (3 / 10) 0) with
    | .ok g => .ok g
    | .error _ => laplacian_fallback_blend ops gray
  else laplacian_fallback_blend ops gray

/-! ## VeinProcessor.process_frame (lines 31-100) -/

/-- The `if self.clahe_config.get('enabled', True):` block of
`process_frame`: apply CLAHE with the configured clip limit and tile grid,
or pass the buffer through when disabled. -/
def clahe_stage (ops : CvOps) (cfg : ProcessorConfig) (gray : GImg) :
    Except Err GImg :=
  if cfg.clahe_enabled then
    ops.clahe_apply cfg.clip_limit cfg.tile_grid_size_x cfg.tile_grid_size_y gray
  else .ok gray

/-- The `if bilateral_config.get('enabled', True):` block of
`process_frame`. -/
def bilateral_stage (ops : CvOps) (cfg : ProcessorConfig) (gray : GImg) :
    Except Err GImg :=
  if cfg.bilateral_enabled then
    ops.bilateralFilter cfg.diameter cfg.sigma_color cfg.sigma_space gray
  else .ok gray

/-- The `if contrast_config.get('enabled', True):` block of
`process_frame` (`cv2.convertScaleAbs`). -/
def contrast_stage (ops : CvOps) (cfg : ProcessorConfig) (gray : GImg) :
    Except Err GImg :=
  if cfg.contrast_enabled then ops.convertScaleAbs cfg.alpha cfg.beta gray
  else .ok gray

/-- The `try` body of `process_frame`: grayscale conversion (2-D frames are
just copied), optional CLAHE, optional bilateral filter, the (total)
advanced vein enhancement, optional contrast stretch, the Frangi blend and
channel restoration.  The `original_gray = gray.copy()` of the source is
stored and never used afterwards, so it is omitted. -/
def process_frame_body (ops : CvOps) (cfg : ProcessorConfig) (skimage : Bool)
    (frame : Img) : Except Err Img := do
  let gray ← match frame with
    | .color c => ops.cvtColor_BGR2GRAY c
    | .gray g => .ok g
  let gray ← clahe_stage ops cfg gray
  let gray ← bilateral_stage ops cfg gray
  let gray := apply_advanced_vein_enhancement ops cfg skimage gray
  let gray ← contrast_stage ops cfg gray
  let gray ← frangi_blend_stage ops skimage gray
  match frame with
  | .color _ => do
      let enhanced_frame ← ops.cvtColor_GRAY2BGR gray
      .ok (.color enhanced_frame)
  | .gray _ => .ok (.gray gray)

/-- Full translation of `process_frame`: size-zero frames are returned
unchanged (the `frame is None` guard has no counterpart for a present
frame), and any exception escaping the body makes the function return the
input frame unchanged. -/
def process_frame (ops : CvOps) (cfg : ProcessorConfig) (skimage : Bool)
    (frame : Img) : Img :=
  if imgSize frame = 0 then frame
  else
    match process_frame_body ops cfg skimage frame with
    | .ok enhanced_frame => enhanced_frame
    | .error _ => frame

/-! ## Contracts of the external primitives and concrete test fixtures -/

/-- The library contract that every external cv2/skimage primitive returns
an image of the same height and width as its (first) image argument, that
`COLOR_BGR2GRAY` / `COLOR_GRAY2BGR` preserve height and width, and that
`cv2.addWeighted` (which requires equal shapes) returns the shape of its
first argument.  This is the documented behaviour of the external
collaborators, stated as hypotheses because their code is outside this
repository. -/
structure ShapePreserving (ops : CvOps) : Prop where
  cvt_gray : ∀ c g, ops.cvtColor_BGR2GRAY c = .ok g → g.h = c.h ∧ g.w = c.w
  cvt_bgr : ∀ g c, ops.cvtColor_GRAY2BGR g = .ok c → c.h = g.h ∧ c.w = g.w
  clahe : ∀ cl tx ty g r, ops.clahe_apply cl tx ty g = .ok r → gshape r = gshape g
  bilateral : ∀ d sc ss g r, ops.bilateralFilter d sc ss g = .ok r → gshape r = gshape g
  scaleAbs : ∀ al be g r, ops.convertScaleAbs al be g = .ok r → gshape r = gshape g
  addW : ∀ a wa b wb c r, ops.addWeighted a wa b wb c = .ok r → gshape r = gshape a
  frangiM : ∀ g r, ops.frangi_main g = .ok r → gshape r = gshape g
  frangiS : ∀ s g r, ops.frangi_scale s g = .ok r → gshape r = gshape g
  gauss : ∀ k s g r, ops.gaussianBlur k s g = .ok r → gshape r = gshape g
  lap64 : ∀ g r, ops.laplacian_64F g = .ok r → gshape r = gshape g
  lap8 : ∀ g r, ops.laplacian_8U g = .ok r → gshape r = gshape g
  filt2D : ∀ g k r, ops.filter2D g k = .ok r → gshape r = gshape g
  tophat : ∀ n g r, ops.morph_tophat n g = .ok r → gshape r = gshape g

/-- The pipeline `process_frame` runs when CLAHE, the bilateral filter and
the contrast stretch are all disabled: grayscale conversion, then the
(unconditional) advanced vein enhancement, then the (unconditional) Frangi
blend, then channel restoration.  Stated to compare with
`process_frame_body`. -/
def disabled_chain (ops : CvOps) (cfg : ProcessorConfig) (skimage : Bool)
    (frame : Img) : Except Err Img := do
  let gray ← match frame with
    | .color c => ops.cvtColor_BGR2GRAY c
    | .gray g => .ok g
  let gray := apply_advanced_vein_enhancement ops cfg skimage gray
  let gray ← frangi_blend_stage ops skimage gray
  match frame with
  | .color _ => do
      let enhanced_frame ← ops.cvtColor_GRAY2BGR gray
      .ok (.color enhanced_frame)
  | .gray _ => .ok (.gray gray)

/-- Sample at row 0, column 0 (channel 0 for BGR), used to separate
concrete output frames. -/
def imgPx00 : Img → ℚ
  | .gray g => g.px 0 0
  | .color c => c.px 0 0 0

/-- A concrete instantiation of the external primitives, consistent with
their behaviour on constant images: smoothing and convolution act as the
identity, the Laplacian of a constant image is zero, `addWeighted` is the
exact weighted sum, the morphological top-hat of a constant image is zero. -/
def idOps : CvOps where
  cvtColor_BGR2GRAY := fun c => .ok { h := c.h, w := c.w, px := fun i j => c.px i j 0 }
  cvtColor_GRAY2BGR := fun g => .ok { h := g.h, w := g.w, px := fun i j _ => g.px i j }
  clahe_apply := fun _ _ _ g => .ok g
  bilateralFilter := fun _ _ _ g => .ok g
  convertScaleAbs := fun _ _ g => .ok g
  addWeighted := fun a wa b wb c =>
    .ok { h := a.h, w := a.w, px := fun i j => wa * a.px i j + wb * b.px i j + c }
  frangi_main := fun g => .ok g
  frangi_scale := fun _ g => .ok g
  gaussianBlur := fun _ _ g => .ok g
  laplacian_64F := fun g => .ok (zerosLike g)
  laplacian_8U := fun g => .ok (zerosLike g)
  filter2D := fun g _ => .ok g
  mkDirectionalKernel := fun _ => { h := 15, w := 15, px := fun _ _ => 0 }
  morph_tophat := fun _ g => .ok (zerosLike g)

/-- A concrete exception value. -/
def cexErr : Err := "stage failure"

/-- `idOps` with a failing morphological top-hat: an exception raised inside
the advanced-vein-enhancement stage. -/
def cexOps : CvOps := { idOps with morph_tophat := fun _ _ => .error cexErr }

/-- `idOps` with a failing `addWeighted`: an exception that escapes every
inner handler and reaches `process_frame`'s own `except`. -/
def failOps : CvOps := { idOps with addWeighted := fun _ _ _ _ _ => .error cexErr }

/-- The default configuration with every toggle-able stage disabled. -/
def disabledConfig : ProcessorConfig :=
  { defaultConfig with
    clahe_enabled := false, bilateral_enabled := false, contrast_enabled := false }

/-- A concrete 1×1 grayscale frame of intensity 10. -/
def g0 : GImg := { h := 1, w := 1, px := fun _ _ => 10 }

/-- A concrete 1×1 zero image for the multi-scale fixtures. -/
def img9 : GImg := { h := 1, w := 1, px := fun _ _ => 0 }

/-- Concrete per-scale ridge responses (constant `s/10`, within [0,1] for
the scales used). -/
def resp9 : ℚ → GImg := fun s => { h := 1, w := 1, px := fun _ _ => s / 10 }

/-- `idOps` whose per-scale Frangi call returns `resp9`. -/
def hessOps9 : CvOps := { idOps with frangi_scale := fun s _ => .ok (resp9 s) }

/-- A 1×2 zero image for the multi-scale counterexample. -/
def img9b : GImg := { h := 1, w := 2, px := fun _ _ => 0 }

/-- A constant-1 per-scale response (the maximal normalized response). -/
def oneImg : GImg := { h := 1, w := 2, px := fun _ _ => 1 }

/-- A plausible signed Laplacian output whose largest value (4) is smaller
than the largest magnitude (8): the fallback normalization
`np.abs(vr) / vr.max()` then produces the value 2 > 1 at column 1. -/
def lapImg : GImg := { h := 1, w := 2, px := fun _ j => if j = 0 then 4 else -8 }

/-- External primitives for the multi-scale counterexample: the per-scale
Frangi call succeeds only at scale 1 (with the constant-1 response) and
raises at every other scale, whose fallback Laplacian is `lapImg`. -/
def cexOps9 : CvOps :=
  { idOps with
    frangi_scale := fun σ _ => if σ = 1 then .ok oneImg else .error cexErr
    laplacian_64F := fun _ => .ok lapImg }

/-- The per-scale responses realized by `cexOps9` on `img9b`. -/
def respC : ℚ → GImg := fun σ => if σ = 1 then oneImg else normByMax lapImg

/-- A concrete detection of confidence 0.9. -/
def dA : Detection :=
  { box := { x := 0, y := 0, w := 10, h := 10 }, confidence := 9 / 10,
    class_id := 0, class_name := "vein" }

/-- A second detection with the same confidence as `dA`, far away. -/
def dB : Detection :=
  { box := { x := 100, y := 100, w := 10, h := 10 }, confidence := 9 / 10,
    class_id := 0, class_name := "vein" }

/-- A detection of confidence 0.3 — below a 0.5 confidence threshold. -/
def dLow : Detection :=
  { box := { x := 0, y := 0, w := 10, h := 10 }, confidence := 3 / 10,
    class_id := 0, class_name := "vein" }

/-- The raw model box that `_run_single_detection` converts to `dLow`. -/
def rawLow : RawBox :=
  { x1 := 0, y1 := 0, x2 := 10, y2 := 10, conf := 3 / 10, cls := 0 }

/-- A concrete 10×10 box at the origin. -/
def boxA : Box := { x := 0, y := 0, w := 10, h := 10 }

/-- A concrete 5×5 box disjoint from `boxA`. -/
def boxB : Box := { x := 20, y := 20, w := 5, h := 5 }

/-- A degenerate box of zero area (union area 0 against itself). -/
def boxZ : Box := { x := 0, y := 0, w := 0, h := 0 }

/-! # Theorems -/

/-! ## IoU facts -/

theorem calculate_iou_comm (b1 b2 : Box) : calculate_iou b1 b2 = calculate_iou b2 b1 := by
  simp only [calculate_iou]
  rw [max_comm b2.x b1.x, max_comm b2.y b1.y, min_comm (b2.x + b2.w) (b1.x + b1.w),
    min_comm (b2.y + b2.h) (b1.y + b1.h), add_comm (b2.w * b2.h) (b1.w * b1.h)]

theorem calculate_iou_self (b1 : Box) (hw1 : 0 < b1.w) (hh1 : 0 < b1.h) :
    calculate_iou b1 b1 = 1 := by
  have harea : (0 : ℚ) < b1.w * b1.h := mul_pos hw1 hh1
  simp only [calculate_iou, max_self, min_self]
  rw [if_neg (by push_neg; constructor <;> linarith)]
  have e1 : b1.x + b1.w - b1.x = b1.w := by ring
  have e2 : b1.y + b1.h - b1.y = b1.h := by ring
  rw [e1, e2]
  have e3 : b1.w * b1.h + b1.w * b1.h - b1.w * b1.h = b1.w * b1.h := by ring
  rw [e3, if_pos harea, div_self (ne_of_gt harea)]

theorem calculate_iou_disjoint (b1 b2 : Box)
    (h : min (b1.x + b1.w) (b2.x + b2.w) ≤ max b1.x b2.x ∨
      min (b1.y + b1.h) (b2.y + b2.h) ≤ max b1.y b2.y) :
    calculate_iou b1 b2 = 0 := by
  simp only [calculate_iou]
  rw [if_pos h]

/-- C3: for boxes with positive width and height, `_calculate_iou` returns
1.0 on two identical boxes, returns 0.0 on two boxes whose overlap is
non-positive in either dimension, and is symmetric. -/
theorem iou_identical_disjoint_symmetric (b1 b2 : Box)
    (hw1 : 0 < b1.w) (hh1 : 0 < b1.h) (hw2 : 0 < b2.w) (hh2 : 0 < b2.h) :
    calculate_iou b1 b1 = 1 ∧
    (min (b1.x + b1.w) (b2.x + b2.w) ≤ max b1.x b2.x ∨
        min (b1.y + b1.h) (b2.y + b2.h) ≤ max b1.y b2.y →
      calculate_iou b1 b2 = 0) ∧
    calculate_iou b1 b2 = calculate_iou b2 b1 :=
  ⟨calculate_iou_self b1 hw1 hh1, calculate_iou_disjoint b1 b2, calculate_iou_comm b1 b2⟩

/-- Witness for C3 at the concrete boxes `boxA` (10×10 at the origin) and
`boxB` (5×5 at (20,20), disjoint from `boxA`). -/
theorem iou_identical_disjoint_symmetric_witness :
    calculate_iou boxA boxA = 1 ∧ calculate_iou boxA boxB = 0 ∧
    calculate_iou boxA boxB = calculate_iou boxB boxA := by
  have h := iou_identical_disjoint_symmetric boxA boxB (by norm_num [boxA])
    (by norm_num [boxA]) (by norm_num [boxB]) (by norm_num [boxB])
  exact ⟨h.1, h.2.1 (by norm_num [boxA, boxB]), h.2.2⟩

/-- C4: `_calculate_iou` is total by construction and guards both division
hazards: a non-positive intersection dimension yields 0, and a zero union
area yields 0 rather than a division. -/
theorem iou_no_division_by_zero (b1 b2 : Box) :
    (min (b1.x + b1.w) (b2.x + b2.w) ≤ max b1.x b2.x ∨
        min (b1.y + b1.h) (b2.y + b2.h) ≤ max b1.y b2.y →
      calculate_iou b1 b2 = 0) ∧
    (union_area b1 b2 = 0 → calculate_iou b1 b2 = 0) := by
  refine ⟨calculate_iou_disjoint b1 b2, fun hu => ?_⟩
  simp only [calculate_iou]
  split
  · rfl
  · rw [if_neg]
    simp only [union_area, box_area, inter_area] at hu
    rw [hu]
    exact lt_irrefl 0

/-- Witness for C4: the disjoint pair `boxA`, `boxB` and the degenerate
zero-area box `boxZ` against itself (union area 0). -/
theorem iou_no_division_by_zero_witness :
    calculate_iou boxA boxB = 0 ∧ calculate_iou boxZ boxZ = 0 :=
  ⟨(iou_no_division_by_zero boxA boxB).1 (by norm_num [boxA, boxB]),
   (iou_no_division_by_zero boxZ boxZ).2 (by norm_num [union_area, box_area, inter_area, boxZ])⟩

/-! ## NMS facts -/

theorem confDescLE_trans (a b c : Detection) :
    confDescLE a b → confDescLE b c → confDescLE a c := by
  simp only [confDescLE, decide_eq_true_eq]
  exact fun h1 h2 => le_trans h2 h1

theorem confDescLE_total (a b : Detection) : confDescLE a b || confDescLE b a := by
  simp only [confDescLE, Bool.or_eq_true, decide_eq_true_eq]
  exact le_total b.confidence a.confidence

theorem nmsLoop_nil (t : ℚ) : nmsLoop t [] = [] := by
  rw [nmsLoop]

theorem nmsLoop_cons (t : ℚ) (best : Detection) (detections : List Detection) :
    nmsLoop t (best :: detections) =
      best :: nmsLoop t (detections.filter
        (fun det => decide (calculate_iou best.box det.box < t))) := by
  rw [nmsLoop]

theorem nmsLoop_sublist (t : ℚ) (l : List Detection) : nmsLoop t l <+ l := by
  induction l using nmsLoop.induct t with
  | case1 => rw [nmsLoop_nil]
  | case2 best detections ih =>
      rw [nmsLoop_cons]
      exact (ih.trans (List.filter_sublist _)).cons₂ best

theorem nmsLoop_pairwise_iou (t : ℚ) (l : List Detection) :
    (nmsLoop t l).Pairwise (fun a b => calculate_iou a.box b.box < t) := by
  induction l using nmsLoop.induct t with
  | case1 => rw [nmsLoop_nil]; exact Pairwise.nil
  | case2 best detections ih =>
      rw [nmsLoop_cons]
      refine Pairwise.cons (fun b hb => ?_) ih
      have hmem := (nmsLoop_sublist t _).subset hb
      exact of_decide_eq_true (List.mem_filter.mp hmem).2

theorem nmsLoop_eq_spec_loop (t : ℚ) (l : List Detection) :
    nmsLoop t l = nms_spec_loop t l := by
  induction l using nmsLoop.induct t with
  | case1 => rw [nmsLoop_nil, nms_spec_loop]
  | case2 best detections ih =>
      have hf : detections.filter
            (fun det => decide (calculate_iou best.box det.box < t)) =
          detections.filter
            (fun det => !(decide (t ≤ calculate_iou best.box det.box))) := by
        refine List.filter_congr (fun d _ => ?_)
        rw [← decide_not]
        exact decide_eq_decide.mpr not_le.symm
      rw [nmsLoop_cons, nms_spec_loop, ih, hf]

theorem apply_nms_sublist_sort (dets : List Detection) (t : ℚ) :
    apply_nms dets t <+ dets.mergeSort confDescLE := by
  unfold apply_nms
  split
  · exact nil_sublist _
  · exact nmsLoop_sublist t _

theorem apply_nms_mem {dets : List Detection} {t : ℚ} {d : Detection}
    (hd : d ∈ apply_nms dets t) : d ∈ dets :=
  mem_mergeSort.mp ((apply_nms_sublist_sort dets t).subset hd)

theorem apply_nms_pairwise_confDescLE (dets : List Detection) (t : ℚ) :
    (apply_nms dets t).Pairwise (fun a b => confDescLE a b) :=
  (sorted_mergeSort confDescLE_trans confDescLE_total dets).sublist
    (apply_nms_sublist_sort dets t)

theorem apply_nms_conf_sorted (dets : List Detection) (t : ℚ) :
    (apply_nms dets t).Pairwise (fun a b => b.confidence ≤ a.confidence) :=
  (apply_nms_pairwise_confDescLE dets t).imp (fun h => of_decide_eq_true h)

theorem apply_nms_pairwise_iou (dets : List Detection) (t : ℚ) :
    (apply_nms dets t).Pairwise (fun a b => calculate_iou a.box b.box < t) := by
  unfold apply_nms
  split
  · exact Pairwise.nil
  · exact nmsLoop_pairwise_iou t _

/-- C2: `_apply_nms` equals the spec's greedy NMS (stable descending sort,
then repeatedly keep the best remaining detection and remove every
remaining one whose IoU with it is at least the threshold), the sort it
performs is a permutation, descending on confidence, and stable on
confidence ties, and the kept output is returned with non-increasing
confidence. -/
theorem nms_greedy_characterization (dets : List Detection) (t : ℚ) :
    apply_nms dets t = nms_spec dets t ∧
    dets.mergeSort confDescLE ~ dets ∧
    (dets.mergeSort confDescLE).Pairwise (fun a b => b.confidence ≤ a.confidence) ∧
    (∀ a b : Detection, [a, b] <+ dets → a.confidence = b.confidence →
      [a, b] <+ dets.mergeSort confDescLE) ∧
    (apply_nms dets t).Pairwise (fun a b => b.confidence ≤ a.confidence) := by
  refine ⟨?_, mergeSort_perm dets confDescLE, ?_, ?_, apply_nms_conf_sorted dets t⟩
  · unfold apply_nms nms_spec
    split
    · rfl
    · exact nmsLoop_eq_spec_loop t _
  · exact (sorted_mergeSort confDescLE_trans confDescLE_total dets).imp
      (fun h => of_decide_eq_true h)
  · intro a b hab hconf
    refine pair_sublist_mergeSort confDescLE_trans confDescLE_total ?_ hab
    simp only [confDescLE, decide_eq_true_eq, hconf, le_refl]

/-- Witness for C2: the stability conjunct applied to the equal-confidence
pair `dA`, `dB`, and the refinement conjunct at the same list. -/
theorem nms_greedy_characterization_witness :
    ([dA, dB] <+ List.mergeSort [dA, dB] confDescLE) ∧
    apply_nms [dA, dB] (2 / 5) = nms_spec [dA, dB] (2 / 5) :=
  ⟨(nms_greedy_characterization [dA, dB] (2 / 5)).2.2.2.1 dA dB
      (Sublist.refl [dA, dB]) rfl,
   (nms_greedy_characterization [dA, dB] (2 / 5)).1⟩

theorem nmsLoop_eq_self (t : ℚ) (l : List Detection)
    (hl : l.Pairwise (fun a b => calculate_iou a.box b.box < t)) :
    nmsLoop t l = l := by
  induction l with
  | nil => exact nmsLoop_nil t
  | cons best detections ih =>
      rw [nmsLoop_cons]
      have h1 : detections.filter
          (fun det => decide (calculate_iou best.box det.box < t)) = detections :=
        List.filter_eq_self.mpr
          (fun d hd => decide_eq_true (rel_of_pairwise_cons hl hd))
      rw [h1, ih hl.of_cons]

/-- C5: `_apply_nms` is idempotent — applying it to its own output with the
same threshold returns the same sequence of detections. -/
theorem nms_idempotent (dets : List Detection) (t : ℚ) :
    apply_nms (apply_nms dets t) t = apply_nms dets t := by
  by_cases h : (apply_nms dets t).isEmpty
  · rw [apply_nms, if_pos h, List.isEmpty_iff.mp h]
  · rw [apply_nms, if_neg h,
      mergeSort_of_sorted (apply_nms_pairwise_confDescLE dets t),
      nmsLoop_eq_self t _ (apply_nms_pairwise_iou dets t)]

/-- C10: every detection kept by `_apply_nms` is one of the input
detections, unmodified, and any two distinct kept detections have IoU
strictly below the threshold (in both argument orders). -/
theorem nms_output_invariants (dets : List Detection) (t : ℚ) :
    (∀ d ∈ apply_nms dets t, d ∈ dets) ∧
    (apply_nms dets t).Pairwise
      (fun a b => calculate_iou a.box b.box < t ∧ calculate_iou b.box a.box < t) :=
  ⟨fun _ hd => apply_nms_mem hd,
   (apply_nms_pairwise_iou dets t).imp
     (fun h => ⟨h, (calculate_iou_comm _ _).trans_lt h⟩)⟩

/-- Witness for C10: membership propagation at the singleton list `[dA]`. -/
theorem nms_output_invariants_witness : dA ∈ [dA] :=
  (nms_output_invariants [dA] (2 / 5)).1 dA
    (by rw [apply_nms, if_neg (by norm_num), mergeSort_singleton, nmsLoop_cons,
          List.filter_nil, nmsLoop_nil]; exact mem_cons_self dA [])

/-- C8 counterexample: the post-processing code applies no confidence gate.
`_run_single_detection` converts the raw model output without comparing
confidences and `_apply_nms` keeps a detection of confidence 0.3 even
though the confidence threshold of the call is 0.5, so a detection with
`confidence < confidence_threshold` can appear in the output. -/
theorem nms_no_confidence_gate_counterexample :
    run_single_detection (Except.ok [rawLow]) ["vein"] = [dLow] ∧
    dLow ∈ apply_nms [dLow] (2 / 5) ∧ dLow.confidence < 1 / 2 := by
  refine ⟨?_, ?_, by norm_num [dLow]⟩
  · simp only [run_single_detection, List.map_cons, List.map_nil, rawLow, dLow]
    norm_num [truncQ]
  · rw [apply_nms, if_neg (by norm_num), mergeSort_singleton, nmsLoop_cons,
      List.filter_nil, nmsLoop_nil]
    exact mem_cons_self dLow []

/-- C8 amended: `_apply_nms` itself never removes a detection for its
confidence (the gate is delegated to the external model call through its
`conf` argument), but its output is a subset of its input, so whenever
every input detection meets the threshold, so does every output
detection. -/
theorem nms_preserves_confidence_bound (ct iouT : ℚ) (dets : List Detection)
    (hin : ∀ d ∈ dets, ct ≤ d.confidence) :
    ∀ d ∈ apply_nms dets iouT, ct ≤ d.confidence :=
  fun d hd => hin d (apply_nms_mem hd)

/-- Witness for the amended C8: the bound instantiated at the singleton
list `[dA]`, threshold 0.1 and the output detection `dA` itself. -/
theorem nms_preserves_confidence_bound_witness : (1 / 10 : ℚ) ≤ dA.confidence :=
  nms_preserves_confidence_bound (1 / 10) (2 / 5) [dA]
    (by intro d hd
        rw [List.mem_singleton] at hd
        rw [hd]
        norm_num [dA])
    dA
    (by rw [apply_nms, if_neg (by norm_num), mergeSort_singleton, nmsLoop_cons,
          List.filter_nil, nmsLoop_nil]
        exact mem_cons_self dA [])

/-! ## Exception-flow facts -/

@[simp] theorem ok_bind {α β : Type} (a : α) (k : α → Except Err β) :
    (Except.ok a >>= k) = k a := rfl

@[simp] theorem error_bind {α β : Type} (e : Err) (k : α → Except Err β) :
    ((Except.error e : Except Err α) >>= k) = Except.error e := rfl

/-- C1 amended: any exception that reaches `process_frame`'s own handler
makes it return the input frame unmodified; but an exception raised inside
the advanced-vein-enhancement stage is caught by that stage's own handler,
which returns the stage input and lets processing continue, so for that
stage the claim's "returns the input frame unmodified" does not hold (see
the counterexample). -/
theorem process_frame_exception_policy (ops : CvOps) (cfg : ProcessorConfig)
    (skimage : Bool) :
    (∀ (frame : Img) (e : Err), process_frame_body ops cfg skimage frame = .error e →
      process_frame ops cfg skimage frame = frame) ∧
    (∀ (g : GImg) (e : Err), adv_vein_body ops cfg skimage g = .error e →
      apply_advanced_vein_enhancement ops cfg skimage g = g) := by
  constructor
  · intro frame e he
    unfold process_frame
    rw [he]
    split <;> rfl
  · intro g e he
    unfold apply_advanced_vein_enhancement
    rw [he]

/-- Witness for the amended C1: with `failOps` the body raises (its final
blend fails) and `process_frame` returns the input; with `cexOps` the
advanced enhancement raises internally and returns its own input. -/
theorem process_frame_exception_policy_witness :
    process_frame failOps disabledConfig false (Img.gray g0) = Img.gray g0 ∧
    apply_advanced_vein_enhancement cexOps disabledConfig false g0 = g0 :=
  ⟨(process_frame_exception_policy failOps disabledConfig false).1
      (Img.gray g0) cexErr rfl,
   (process_frame_exception_policy cexOps disabledConfig false).2 g0 cexErr rfl⟩

/-- C1 counterexample: with `cexOps` the morphological top-hat raises
inside the advanced-vein-enhancement stage (`adv_vein_body` returns an
error), yet `process_frame` does NOT return the input frame unmodified —
the stage-local handler substitutes the stage input and the remaining
stages keep transforming it, so the output pixel value is 83.5, not 10. -/
theorem process_frame_inner_catch_counterexample :
    adv_vein_body cexOps disabledConfig false g0 = .error cexErr ∧
    process_frame cexOps disabledConfig false (Img.gray g0) ≠ Img.gray g0 := by
  refine ⟨rfl, fun hcontra => ?_⟩
  have h0 := congrArg imgPx00 hcontra
  rw [show imgPx00 (process_frame cexOps disabledConfig false (Img.gray g0)) =
      7 / 10 * 10 + 3 / 10 * (255 - 0) + 0 from rfl,
    show imgPx00 (Img.gray g0) = 10 from rfl] at h0
  norm_num at h0

/-- C7 amended: with CLAHE, the bilateral filter and the contrast stretch
all disabled, `process_frame`'s body still runs the unconditional advanced
vein enhancement and Frangi blend after the grayscale conversion — it is
the `disabled_chain`, not the plain grayscale conversion (see the
counterexample). -/
theorem process_frame_disabled_stages (ops : CvOps) (cfg : ProcessorConfig)
    (skimage : Bool) (frame : Img)
    (h1 : cfg.clahe_enabled = false) (h2 : cfg.bilateral_enabled = false)
    (h3 : cfg.contrast_enabled = false) :
    process_frame_body ops cfg skimage frame = disabled_chain ops cfg skimage frame := by
  simp only [process_frame_body, disabled_chain, clahe_stage, bilateral_stage,
    contrast_stage, h1, h2, h3, Bool.false_eq_true, if_false, ok_bind]

/-- Witness for the amended C7 at the all-disabled configuration, `idOps`
and the 1×1 frame `g0`. -/
theorem process_frame_disabled_stages_witness :
    process_frame_body idOps disabledConfig false (Img.gray g0) =
      disabled_chain idOps disabledConfig false (Img.gray g0) :=
  process_frame_disabled_stages idOps disabledConfig false (Img.gray g0) rfl rfl rfl

/-- C7 counterexample: with every toggle-able stage disabled and external
primitives behaving as on constant images (`idOps`), the enhanced output of
the 1×1 gray frame `g0` (intensity 10) has pixel value 80.7 — the
unconditional vein-enhancement and ridge-blend stages transform the frame,
so the output is NOT the plain grayscale conversion of the input. -/
theorem process_frame_disabled_not_grayscale_counterexample :
    disabledConfig.clahe_enabled = false ∧ disabledConfig.bilateral_enabled = false ∧
    disabledConfig.contrast_enabled = false ∧
    process_frame idOps disabledConfig false (Img.gray g0) ≠ Img.gray g0 := by
  refine ⟨rfl, rfl, rfl, fun hcontra => ?_⟩
  have h0 := congrArg imgPx00 hcontra
  rw [show imgPx00 (process_frame idOps disabledConfig false (Img.gray g0)) =
      7 / 10 * (6 / 10 * 10 + 4 / 10 * u8q (clip0255 (0 + 1 / 4 * 0 + 1 / 4 * 0 + 1 / 4 * 0 + 1 / 4 * 0)) + 0) +
        3 / 10 * (255 - 0) + 0 from rfl,
    show imgPx00 (Img.gray g0) = 10 from rfl] at h0
  norm_num [u8q, clip0255, truncQ] at h0

/-! ## Shape preservation -/

theorem bind_ok_iff {α β : Type} (x : Except Err α) (k : α → Except Err β) (out : β) :
    (x >>= k) = .ok out ↔ ∃ a, x = .ok a ∧ k a = .ok out := by
  cases x with
  | error e =>
      simp only [error_bind]
      exact ⟨fun h => Except.noConfusion h, fun ⟨a, ha, _⟩ => Except.noConfusion ha⟩
  | ok a =>
      simp only [ok_bind]
      refine ⟨fun h => ⟨a, rfl, h⟩, fun ⟨b, hb, hk⟩ => ?_⟩
      cases hb
      exact hk

theorem adv_vein_body_gshape (ops : CvOps) (hs : ShapePreserving ops)
    (cfg : ProcessorConfig) (skimage : Bool) (gray r : GImg)
    (h : adv_vein_body ops cfg skimage gray = .ok r) : gshape r = gshape gray := by
  unfold adv_vein_body at h
  rw [bind_ok_iff] at h
  obtain ⟨e1, _, h⟩ := h
  try dsimp only at h
  rw [bind_ok_iff] at h
  obtain ⟨e2, _, h⟩ := h
  try dsimp only at h
  rw [bind_ok_iff] at h
  obtain ⟨e3, _, h⟩ := h
  try dsimp only at h
  exact hs.addW _ _ _ _ _ _ h

theorem apply_advanced_vein_enhancement_gshape (ops : CvOps) (hs : ShapePreserving ops)
    (cfg : ProcessorConfig) (skimage : Bool) (gray : GImg) :
    gshape (apply_advanced_vein_enhancement ops cfg skimage gray) = gshape gray := by
  unfold apply_advanced_vein_enhancement
  cases hx : adv_vein_body ops cfg skimage gray with
  | ok e => exact adv_vein_body_gshape ops hs cfg skimage gray e hx
  | error e => rfl

theorem laplacian_fallback_blend_gshape (ops : CvOps) (hs : ShapePreserving ops)
    (gray r : GImg) (h : laplacian_fallback_blend ops gray = .ok r) :
    gshape r = gshape gray := by
  unfold laplacian_fallback_blend at h
  rw [bind_ok_iff] at h
  obtain ⟨lap, _, h⟩ := h
  try dsimp only at h
  exact hs.addW _ _ _ _ _ _ h

theorem frangi_blend_stage_gshape (ops : CvOps) (hs : ShapePreserving ops)
    (skimage : Bool) (gray r : GImg)
    (h : frangi_blend_stage ops skimage gray = .ok r) : gshape r = gshape gray := by
  unfold frangi_blend_stage at h
  split at h
  · split at h
    · rename_i g heq
      cases h
      rw [bind_ok_iff] at heq
      obtain ⟨fr, _, heq⟩ := heq
      try dsimp only at heq
      exact hs.addW _ _ _ _ _ _ heq
    · exact laplacian_fallback_blend_gshape ops hs gray r h
  · exact laplacian_fallback_blend_gshape ops hs gray r h

theorem clahe_stage_gshape (ops : CvOps) (hs : ShapePreserving ops)
    (cfg : ProcessorConfig) (g r : GImg) (h : clahe_stage ops cfg g = .ok r) :
    gshape r = gshape g := by
  unfold clahe_stage at h
  split at h
  · exact hs.clahe _ _ _ _ _ h
  · cases h
    rfl

theorem bilateral_stage_gshape (ops : CvOps) (hs : ShapePreserving ops)
    (cfg : ProcessorConfig) (g r : GImg) (h : bilateral_stage ops cfg g = .ok r) :
    gshape r = gshape g := by
  unfold bilateral_stage at h
  split at h
  · exact hs.bilateral _ _ _ _ _ h
  · cases h
    rfl

theorem contrast_stage_gshape (ops : CvOps) (hs : ShapePreserving ops)
    (cfg : ProcessorConfig) (g r : GImg) (h : contrast_stage ops cfg g = .ok r) :
    gshape r = gshape g := by
  unfold contrast_stage at h
  split at h
  · exact hs.scaleAbs _ _ _ _ h
  · cases h
    rfl

theorem process_frame_body_shape (ops : CvOps) (hs : ShapePreserving ops)
    (cfg : ProcessorConfig) (skimage : Bool) (frame : Img) (out : Img)
    (h : process_frame_body ops cfg skimage frame = .ok out) :
    imgShape out = imgShape frame := by
  unfold process_frame_body at h
  cases frame with
  | gray g =>
      try dsimp only at h
      rw [bind_ok_iff] at h
      obtain ⟨g1, hg1, h⟩ := h
      have hg1e : g1 = g := by cases hg1; rfl
      subst hg1e
      try dsimp only at h
      rw [bind_ok_iff] at h
      obtain ⟨g2, hg2, h⟩ := h
      have s2 : gshape g2 = gshape g1 := clahe_stage_gshape ops hs cfg g1 g2 hg2
      try dsimp only at h
      rw [bind_ok_iff] at h
      obtain ⟨g3, hg3, h⟩ := h
      have s3 : gshape g3 = gshape g2 := bilateral_stage_gshape ops hs cfg g2 g3 hg3
      try dsimp only at h
      rw [bind_ok_iff] at h
      obtain ⟨g4, hg4, h⟩ := h
      have s4 : gshape g4 = gshape g3 := by
        have hadv := apply_advanced_vein_enhancement_gshape ops hs cfg skimage g3
        exact (contrast_stage_gshape ops hs cfg _ g4 hg4).trans hadv
      try dsimp only at h
      rw [bind_ok_iff] at h
      obtain ⟨g5, hg5, h⟩ := h
      have s5 : gshape g5 = gshape g4 := frangi_blend_stage_gshape ops hs skimage g4 g5 hg5
      try dsimp only at h
      cases h
      have : gshape g5 = gshape g1 := by
        rw [s5, s4, s3, s2]
      simp only [imgShape, Prod.mk.injEq]
      exact ⟨congrArg Prod.fst this, congrArg Prod.snd this, trivial⟩
  | color c =>
      try dsimp only at h
      rw [bind_ok_iff] at h
      obtain ⟨g1, hg1, h⟩ := h
      obtain ⟨hh1, hw1⟩ := hs.cvt_gray c g1 hg1
      try dsimp only at h
      rw [bind_ok_iff] at h
      obtain ⟨g2, hg2, h⟩ := h
      have s2 : gshape g2 = gshape g1 := clahe_stage_gshape ops hs cfg g1 g2 hg2
      try dsimp only at h
      rw [bind_ok_iff] at h
      obtain ⟨g3, hg3, h⟩ := h
      have s3 : gshape g3 = gshape g2 := bilateral_stage_gshape ops hs cfg g2 g3 hg3
      try dsimp only at h
      rw [bind_ok_iff] at h
      obtain ⟨g4, hg4, h⟩ := h
      have s4 : gshape g4 = gshape g3 := by
        have hadv := apply_advanced_vein_enhancement_gshape ops hs cfg skimage g3
        exact (contrast_stage_gshape ops hs cfg _ g4 hg4).trans hadv
      try dsimp only at h
      rw [bind_ok_iff] at h
      obtain ⟨g5, hg5, h⟩ := h
      have s5 : gshape g5 = gshape g4 := frangi_blend_stage_gshape ops hs skimage g4 g5 hg5
      try dsimp only at h
      rw [bind_ok_iff] at h
      obtain ⟨c2, hc2, h⟩ := h
      obtain ⟨hh2, hw2⟩ := hs.cvt_bgr g5 c2 hc2
      try dsimp only at h
      cases h
      have hsh : gshape g5 = gshape g1 := by
        rw [s5, s4, s3, s2]
      have hh : g5.h = g1.h := congrArg Prod.fst hsh
      have hw : g5.w = g1.w := congrArg Prod.snd hsh
      simp only [imgShape, Prod.mk.injEq]
      exact ⟨by rw [hh2, hh, hh1], by rw [hw2, hw, hw1], trivial⟩

/-- C6: given the library contract that every external primitive preserves
height and width (and that channel conversion restores three channels),
`process_frame` returns a frame of identical width, height and channel
count for every input frame. -/
theorem enhancement_shape_preservation (ops : CvOps) (hs : ShapePreserving ops)
    (cfg : ProcessorConfig) (skimage : Bool) (frame : Img) :
    imgShape (process_frame ops cfg skimage frame) = imgShape frame := by
  unfold process_frame
  split
  · rfl
  · cases hx : process_frame_body ops cfg skimage frame with
    | ok out => exact process_frame_body_shape ops hs cfg skimage frame out hx
    | error e => rfl

theorem idOps_shape : ShapePreserving idOps :=
  { cvt_gray := fun c g h => by cases h; exact ⟨rfl, rfl⟩
    cvt_bgr := fun g c h => by cases h; exact ⟨rfl, rfl⟩
    clahe := fun cl tx ty g r h => by cases h; rfl
    bilateral := fun d sc ss g r h => by cases h; rfl
    scaleAbs := fun al be g r h => by cases h; rfl
    addW := fun a wa b wb c r h => by cases h; rfl
    frangiM := fun g r h => by cases h; rfl
    frangiS := fun s g r h => by cases h; rfl
    gauss := fun k s g r h => by cases h; rfl
    lap64 := fun g r h => by cases h; rfl
    lap8 := fun g r h => by cases h; rfl
    filt2D := fun g k r h => by cases h; rfl
    tophat := fun n g r h => by cases h; rfl }

/-- Witness for C6 at `idOps` (which satisfies the shape contract), the
default configuration and the 1×1 gray frame `g0`. -/
theorem enhancement_shape_preservation_witness :
    imgShape (process_frame idOps defaultConfig true (Img.gray g0)) =
      imgShape (Img.gray g0) :=
  enhancement_shape_preservation idOps idOps_shape defaultConfig true (Img.gray g0)

/-! ## Multi-scale ridge response -/

theorem hessian_foldlM_ok (ops : CvOps) (n i : GImg) (resp : ℚ → GImg)
    (sigmas : List ℚ)
    (hresp : ∀ σ ∈ sigmas, hessian_scale_response ops n i σ = .ok (resp σ)) :
    ∀ acc : GImg, List.foldlM (hessian_scale_step ops n i) acc sigmas =
      .ok (sigmas.foldl (fun a σ => pxMax a (resp σ)) acc) := by
  induction sigmas with
  | nil => intro acc; rfl
  | cons σ rest ih =>
      intro acc
      rw [List.foldlM_cons]
      have h1 : hessian_scale_step ops n i acc σ = .ok (pxMax acc (resp σ)) := by
        unfold hessian_scale_step
        rw [hresp σ (mem_cons_self σ rest)]
      rw [h1, ok_bind, List.foldl_cons]
      exact ih (fun s hs => hresp s (mem_cons_of_mem σ hs)) (pxMax acc (resp σ))

theorem foldl_pxMax_px (resp : ℚ → GImg) (sigmas : List ℚ) :
    ∀ (acc : GImg) (i j : Nat),
      (sigmas.foldl (fun a σ => pxMax a (resp σ)) acc).px i j =
        sigmas.foldl (fun m σ => max m ((resp σ).px i j)) (acc.px i j) := by
  induction sigmas with
  | nil => intro acc i j; rfl
  | cons σ rest ih =>
      intro acc i j
      rw [List.foldl_cons, List.foldl_cons]
      exact ih (pxMax acc (resp σ)) i j

theorem le_foldl_max (l : List ℚ) : ∀ b : ℚ, b ≤ l.foldl max b := by
  induction l with
  | nil => intro b; exact le_refl b
  | cons x xs ih =>
      intro b
      rw [List.foldl_cons]
      exact le_trans (le_max_left b x) (ih _)

theorem foldl_max_le_of (l : List ℚ) (c : ℚ) :
    ∀ b, b ≤ c → (∀ x ∈ l, x ≤ c) → l.foldl max b ≤ c := by
  induction l with
  | nil => intro b hb _; exact hb
  | cons x xs ih =>
      intro b hb hx
      rw [List.foldl_cons]
      exact ih _ (max_le hb (hx x (mem_cons_self x xs)))
        (fun y hy => hx y (mem_cons_of_mem x hy))

theorem foldl_max_comp (f : ℚ → ℚ) (l : List ℚ) :
    ∀ b : ℚ, l.foldl (fun m σ => max m (f σ)) b = (l.map f).foldl max b := by
  induction l with
  | nil => intro b; rfl
  | cons x xs ih =>
      intro b
      rw [List.foldl_cons, List.map_cons, List.foldl_cons]
      exact ih _

theorem truncQ_nonneg_eq_floor {x : ℚ} (hx : 0 ≤ x) : truncQ x = ⌊x⌋ := if_pos hx

theorem u8q_mono {x y : ℚ} (hx : 0 ≤ x) (hxy : x ≤ y) (hy : y ≤ 255) :
    u8q x ≤ u8q y := by
  have hy0 : 0 ≤ y := le_trans hx hxy
  have hx255 : x ≤ 255 := le_trans hxy hy
  unfold u8q
  rw [truncQ_nonneg_eq_floor hx, truncQ_nonneg_eq_floor hy0]
  have hfx0 : (0 : Int) ≤ ⌊x⌋ := Int.floor_nonneg.mpr hx
  have hfy0 : (0 : Int) ≤ ⌊y⌋ := Int.floor_nonneg.mpr hy0
  have h255 : (⌊(255 : ℚ)⌋ : Int) = 255 := by norm_num
  have hfx : ⌊x⌋ < 256 := by
    have := Int.floor_le_floor hx255
    rw [h255] at this
    omega
  have hfy : ⌊y⌋ < 256 := by
    have := Int.floor_le_floor hy
    rw [h255] at this
    omega
  rw [Int.emod_eq_of_lt hfx0 hfx, Int.emod_eq_of_lt hfy0 hfy]
  exact_mod_cast Int.floor_le_floor hxy

/-- C9: when every per-scale response of `_hessian_vessel_enhancement`
computes (either the per-scale Frangi call or its per-scale fallback) and
is a normalized response in [0,1], the returned multi-scale ridge response
is, pixelwise, the rescaled pointwise maximum of the per-scale responses
(with numpy's zero initial accumulator), and appending a scale to
`sigma_values` never decreases the returned response at any pixel. -/
theorem multiscale_ridge_max_monotone (ops : CvOps) (image : GImg)
    (sigmas : List ℚ) (s : ℚ) (resp : ℚ → GImg)
    (hresp : ∀ σ ∈ sigmas ++ [s],
      hessian_scale_response ops (div255 image) image σ = .ok (resp σ))
    (hbound : ∀ σ ∈ sigmas ++ [s], ∀ i j, 0 ≤ (resp σ).px i j ∧ (resp σ).px i j ≤ 1) :
    ∃ r1 r2, hessian_body ops sigmas image = .ok r1 ∧
      hessian_body ops (sigmas ++ [s]) image = .ok r2 ∧
      (∀ i j, r1.px i j =
        u8q (255 * (sigmas.foldl (fun m σ => max m ((resp σ).px i j)) 0))) ∧
      (∀ i j, r2.px i j =
        u8q (255 * ((sigmas ++ [s]).foldl (fun m σ => max m ((resp σ).px i j)) 0))) ∧
      ∀ i j, r1.px i j ≤ r2.px i j := by
  have hr1 : ∀ σ ∈ sigmas, hessian_scale_response ops (div255 image) image σ = .ok (resp σ) :=
    fun σ hσ => hresp σ (mem_append_left _ hσ)
  have hb1 : hessian_body ops sigmas image =
      .ok (scale255u8 (sigmas.foldl (fun a σ => pxMax a (resp σ))
        (zerosLike (div255 image)))) := by
    unfold hessian_body
    rw [hessian_foldlM_ok ops (div255 image) image resp sigmas hr1
      (zerosLike (div255 image)), ok_bind]
  have hb2 : hessian_body ops (sigmas ++ [s]) image =
      .ok (scale255u8 ((sigmas ++ [s]).foldl (fun a σ => pxMax a (resp σ))
        (zerosLike (div255 image)))) := by
    unfold hessian_body
    rw [hessian_foldlM_ok ops (div255 image) image resp (sigmas ++ [s]) hresp
      (zerosLike (div255 image)), ok_bind]
  have hpx1 : ∀ i j,
      (scale255u8 (sigmas.foldl (fun a σ => pxMax a (resp σ))
        (zerosLike (div255 image)))).px i j =
        u8q (255 * (sigmas.foldl (fun m σ => max m ((resp σ).px i j)) 0)) := by
    intro i j
    show u8q (255 * (sigmas.foldl (fun a σ => pxMax a (resp σ))
      (zerosLike (div255 image))).px i j) = _
    rw [foldl_pxMax_px]
    rfl
  have hpx2 : ∀ i j,
      (scale255u8 ((sigmas ++ [s]).foldl (fun a σ => pxMax a (resp σ))
        (zerosLike (div255 image)))).px i j =
        u8q (255 * ((sigmas ++ [s]).foldl (fun m σ => max m ((resp σ).px i j)) 0)) := by
    intro i j
    show u8q (255 * ((sigmas ++ [s]).foldl (fun a σ => pxMax a (resp σ))
      (zerosLike (div255 image))).px i j) = _
    rw [foldl_pxMax_px]
    rfl
  refine ⟨_, _, hb1, hb2, hpx1, hpx2, ?_⟩
  intro i j
  rw [hpx1 i j, hpx2 i j,
    foldl_max_comp (fun σ => (resp σ).px i j) sigmas 0,
    foldl_max_comp (fun σ => (resp σ).px i j) (sigmas ++ [s]) 0,
    List.map_append]
  set f := fun σ => (resp σ).px i j
  have hM1 : (0 : ℚ) ≤ (sigmas.map f).foldl max 0 := le_foldl_max _ 0
  have happ : ((sigmas.map f) ++ [s].map f).foldl max 0 =
      max ((sigmas.map f).foldl max 0) (f s) := by
    rw [List.foldl_append]
    rfl
  have hM2le : ((sigmas.map f) ++ [s].map f).foldl max 0 ≤ 1 := by
    refine foldl_max_le_of _ 1 0 zero_le_one (fun x hx => ?_)
    rw [← List.map_append] at hx
    obtain ⟨σ, hσ, rfl⟩ := List.mem_map.mp hx
    exact (hbound σ hσ i j).2
  have hM1leM2 : (sigmas.map f).foldl max 0 ≤
      ((sigmas.map f) ++ [s].map f).foldl max 0 := by
    rw [happ]
    exact le_max_left _ _
  exact u8q_mono (mul_nonneg (by norm_num) hM1)
    (mul_le_mul_of_nonneg_left hM1leM2 (by norm_num))
    (by nlinarith)

/-- Witness for C9: concrete per-scale responses `resp9` (constant `σ/10`)
over the scales [1, 2] with added scale 3 on the 1×1 zero image. -/
theorem multiscale_ridge_max_monotone_witness :
    ∃ r1 r2, hessian_body hessOps9 [1, 2] img9 = .ok r1 ∧
      hessian_body hessOps9 ([1, 2] ++ [3]) img9 = .ok r2 ∧
      (∀ i j, r1.px i j =
        u8q (255 * ([1, 2].foldl (fun m σ => max m ((resp9 σ).px i j)) 0))) ∧
      (∀ i j, r2.px i j =
        u8q (255 * (([1, 2] ++ [3]).foldl (fun m σ => max m ((resp9 σ).px i j)) 0))) ∧
      ∀ i j, r1.px i j ≤ r2.px i j :=
  multiscale_ridge_max_monotone hessOps9 img9 [1, 2] 3 resp9
    (fun σ _ => rfl)
    (by
      intro σ hσ i j
      fin_cases hσ <;> constructor <;> norm_num [resp9])

/-- C9 counterexample: without the [0,1] bound the monotonicity claim fails
on the code.  At scale 1 the Frangi response is the constant 1, so the
returned value is 255 everywhere; adding scale 2, whose Frangi call raises
and whose fallback normalization `np.abs(vr) / vr.max()` divides by the
SIGNED maximum (4) of a Laplacian with a larger magnitude (−8), yields the
per-scale value 2, and the unclipped cast `(2 * 255) mod 256 = 254 < 255`
wraps: the returned ridge response decreases at that pixel when a scale is
added. -/
theorem multiscale_ridge_wrap_counterexample :
    ∃ r1 r2, hessian_body cexOps9 [1] img9b = .ok r1 ∧
      hessian_body cexOps9 [1, 2] img9b = .ok r2 ∧
      r2.px 0 1 < r1.px 0 1 := by
  have hresp1 : hessian_scale_response cexOps9 (div255 img9b) img9b 1 = .ok (respC 1) := by
    unfold hessian_scale_response cexOps9 respC
    norm_num
  have hresp2 : hessian_scale_response cexOps9 (div255 img9b) img9b 2 = .ok (respC 2) := by
    unfold hessian_scale_response cexOps9 respC idOps
    norm_num
  have h1 : hessian_body cexOps9 [1] img9b =
      .ok (scale255u8 ([1].foldl (fun a σ => pxMax a (respC σ))
        (zerosLike (div255 img9b)))) := by
    unfold hessian_body
    rw [hessian_foldlM_ok cexOps9 (div255 img9b) img9b respC [1]
      (by intro σ hσ; fin_cases hσ; exact hresp1) (zerosLike (div255 img9b)), ok_bind]
  have h2 : hessian_body cexOps9 [1, 2] img9b =
      .ok (scale255u8 ([1, 2].foldl (fun a σ => pxMax a (respC σ))
        (zerosLike (div255 img9b)))) := by
    unfold hessian_body
    rw [hessian_foldlM_ok cexOps9 (div255 img9b) img9b respC [1, 2]
      (by intro σ hσ; fin_cases hσ
          · exact hresp1
          · exact hresp2) (zerosLike (div255 img9b)), ok_bind]
  have hmax : imgMax lapImg = 4 := by
    have hpl : pixList lapImg = [4, -8] := rfl
    unfold imgMax
    rw [hpl]
    have : ([(4 : ℚ), -8]).max? = some (max 4 (-8)) := rfl
    rw [this, Option.getD_some]
    norm_num
  have hr1px : (respC 1).px 0 1 = 1 := by norm_num [respC, oneImg]
  have hr2px : (respC 2).px 0 1 = 2 := by
    have : respC 2 = normByMax lapImg := by norm_num [respC]
    rw [this]
    show |lapImg.px 0 1| / imgMax lapImg = 2
    rw [hmax]
    norm_num [lapImg]
  refine ⟨_, _, h1, h2, ?_⟩
  show u8q (255 * ([1, 2].foldl (fun a σ => pxMax a (respC σ))
      (zerosLike (div255 img9b))).px 0 1) <
    u8q (255 * ([1].foldl (fun a σ => pxMax a (respC σ))
      (zerosLike (div255 img9b))).px 0 1)
  rw [foldl_pxMax_px, foldl_pxMax_px]
  show u8q (255 * max (max 0 ((respC 1).px 0 1)) ((respC 2).px 0 1)) <
    u8q (255 * max 0 ((respC 1).px 0 1))
  rw [hr1px, hr2px]
  rw [show max (max (0 : ℚ) 1) 2 = 2 by norm_num, show max (0 : ℚ) 1 = 1 by norm_num]
  show ((truncQ (255 * 2) % 256 : Int) : ℚ) < ((truncQ (255 * 1) % 256 : Int) : ℚ)
  rw [show truncQ (255 * 2) = 510 by norm_num [truncQ],
    show truncQ (255 * 1) = 255 by norm_num [truncQ]]
  norm_num

end ControlCamera
